import Mathlib

/-!
Shallow embedding of the FlexiPage record-form layout/rule engine
(`flexipageRecordForm` LWC component and its `utils.js` parser).

JavaScript values flowing through the engine (record field values,
criterion operands, default values) are modelled by `JSValue`.
Numbers are modelled by `JSNumber`, an exact fraction with a positive
denominator; the model covers the decimal literals the engine actually
manipulates (integer and fixed-point decimal strings).  JS `NaN` is
represented as the *absence* of a number (`Option JSNumber`), which is
how it behaves in every comparison the engine performs.
Thrown JS exceptions are modelled with `Option`/`Except` result types.
-/

/-- An exact number `n / d` with `d` positive by construction.  Numeric
comparison and equality are by cross-multiplication, so representations
need not be reduced. -/
structure JSNumber where
  n : Int
  d : Nat
deriving DecidableEq

/-- Numeric equality of two `JSNumber`s (cross-multiplication). -/
def jnEq (a b : JSNumber) : Bool := a.n * b.d = b.n * a.d

def jnLt (a b : JSNumber) : Bool := a.n * b.d < b.n * a.d

def jnLe (a b : JSNumber) : Bool := a.n * b.d ≤ b.n * a.d

inductive JSValue where
  | str (s : String)
  | num (q : JSNumber)
  | bool (b : Bool)
  | null
  | undefined
deriving DecidableEq

instance : OfNat JSNumber m := ⟨⟨m, 1⟩⟩

/-- Truthiness of a JS value (`!v` in the source negates this). -/
def jsFalsy : JSValue → Bool
  | .str s => s = ""
  | .num q => jnEq q 0
  | .bool b => !b
  | .null => true
  | .undefined => true

/-- Lower-casing as performed by `String.prototype.toLowerCase` on the
ASCII identifiers the engine handles. -/
def jsLowerStr (s : String) : String := ⟨s.data.map Char.toLower⟩

/-- Whitespace trimming (`String.prototype.trim`). -/
def jsTrim (s : String) : String :=
  ⟨((s.data.dropWhile Char.isWhitespace).reverse.dropWhile Char.isWhitespace).reverse⟩

/-- Splitting on a non-empty separator string, as
`String.prototype.split(sep)`: left-to-right, non-overlapping, empty
pieces kept.  The `Nat` argument is fuel; callers pass the string length,
which always suffices since every step consumes at least one character. -/
def jsSplitAux (sep : List Char) : Nat → List Char → List Char → List (List Char)
  | _, [], acc => [acc.reverse]
  | 0, rest, acc => [acc.reverse ++ rest]
  | Nat.succ fuel, c :: rest, acc =>
    if sep.isPrefixOf (c :: rest) then
      acc.reverse :: jsSplitAux sep fuel ((c :: rest).drop sep.length) []
    else
      jsSplitAux sep fuel rest (c :: acc)

def jsSplitOn (s sep : String) : List String :=
  (jsSplitAux sep.data s.data.length s.data []).map (fun l => ⟨l⟩)

/-- First-occurrence replacement, as `String.prototype.replace` with a
plain string pattern. -/
def jsReplaceFirstAux (pat repl : List Char) : List Char → List Char
  | [] => []
  | c :: rest =>
    if pat.isPrefixOf (c :: rest) then repl ++ (c :: rest).drop pat.length
    else c :: jsReplaceFirstAux pat repl rest

def jsReplaceFirst (s pat repl : String) : String :=
  ⟨jsReplaceFirstAux pat.data repl.data s.data⟩

/-- JS regex word character (`\w`, i.e. `[A-Za-z0-9_]`). -/
def isWordChar (c : Char) : Bool := c.isAlphanum || c = '_'

def wordBoundaryBefore : Option Char → Bool
  | none => true
  | some p => !isWordChar p

def wordBoundaryAfter : List Char → Bool
  | [] => true
  | d :: _ => !isWordChar d

/-- Global word-bounded replacement, as
`String.prototype.replace(new RegExp("\\b" + w + "\\b", "g"), repl)` for
a word `w` made of word characters (the engine only uses `and`, `or`,
`true`, `false` and decimal indices).  Matching is performed against the
original characters; the scan resumes after each match.  The `Nat`
argument is fuel; the string length always suffices. -/
def jsReplaceWordAux (w repl : List Char) : Nat → Option Char → List Char → List Char
  | _, _, [] => []
  | 0, _, l => l
  | Nat.succ fuel, prev, c :: rest =>
    if w.isPrefixOf (c :: rest) && wordBoundaryBefore prev
        && wordBoundaryAfter ((c :: rest).drop w.length) then
      repl ++ jsReplaceWordAux w repl fuel (some (w.getLastD c)) ((c :: rest).drop w.length)
    else
      c :: jsReplaceWordAux w repl fuel (some c) rest

def jsReplaceWordAll (s w repl : String) : String :=
  ⟨jsReplaceWordAux w.data repl.data s.data.length none s.data⟩

/-- Substring test, as `String.prototype.includes` on the receiver side. -/
def containsSubAux (sub : List Char) : List Char → Bool
  | [] => sub.isPrefixOf ([] : List Char)
  | c :: rest => sub.isPrefixOf (c :: rest) || containsSubAux sub rest

def strContainsSub (s sub : String) : Bool := containsSubAux sub.data s.data

/-- Decimal digit run to a natural number. -/
def digitsToNat (l : List Char) : Nat :=
  l.foldl (fun a c => a * 10 + (c.toNat - 48)) 0

/-- `ToNumber` on a trimmed character list: optional sign, then either
`digits`, `digits.digits`, `.digits` or `digits.`; the empty string is
`0`.  Exponent, hexadecimal and `Infinity` forms (never produced by this
engine's data) are not modelled and map to `none` (NaN). -/
def strToNumberCore (l : List Char) : Option JSNumber :=
  match l with
  | [] => some 0
  | _ =>
    let signed : Int × List Char :=
      match l with
      | '-' :: t => (-1, t)
      | '+' :: t => (1, t)
      | t => (1, t)
    let intPart := signed.2.takeWhile Char.isDigit
    let rest := signed.2.dropWhile Char.isDigit
    match rest with
    | [] =>
      if intPart.isEmpty then none
      else some ⟨signed.1 * digitsToNat intPart, 1⟩
    | '.' :: frac =>
      if frac.all Char.isDigit && !(intPart.isEmpty && frac.isEmpty) then
        some ⟨signed.1 * (digitsToNat intPart * 10 ^ frac.length + digitsToNat frac), 10 ^ frac.length⟩
      else none
    | _ => none

def strToNumber (s : String) : Option JSNumber := strToNumberCore (jsTrim s).data

/-- JS `ToNumber`; `none` is NaN. -/
def toNumber : JSValue → Option JSNumber
  | .num q => some q
  | .bool b => some (if b then 1 else 0)
  | .null => some 0
  | .undefined => none
  | .str s => strToNumber s

/-- Lexicographic string order on character values, as JS `<` compares
strings (code-unit order; identical for the ASCII data handled here). -/
def strLt : List Char → List Char → Bool
  | [], [] => false
  | [], _ :: _ => true
  | _ :: _, [] => false
  | x :: xs, y :: ys => x < y || (x = y && strLt xs ys)

/-- JS `a < b`: string comparison when both are strings, else numeric
comparison where any NaN yields `false`. -/
def jsLt : JSValue → JSValue → Bool
  | .str a, .str b => strLt a.data b.data
  | a, b =>
    match toNumber a, toNumber b with
    | some x, some y => jnLt x y
    | _, _ => false

/-- JS `a <= b` (NaN on either side yields `false`). -/
def jsLe : JSValue → JSValue → Bool
  | .str a, .str b => !strLt b.data a.data
  | a, b =>
    match toNumber a, toNumber b with
    | some x, some y => jnLe x y
    | _, _ => false

def jsGt (a b : JSValue) : Bool := jsLt b a

def jsGe (a b : JSValue) : Bool := jsLe b a

/-- JS strict equality `===` on the modelled value domain. -/
def jsStrictEq : JSValue → JSValue → Bool
  | .str a, .str b => a = b
  | .num a, .num b => jnEq a b
  | .bool a, .bool b => a = b
  | .null, .null => true
  | .undefined, .undefined => true
  | _, _ => false

/-- JS `ToString`, as used to coerce the argument of
`String.prototype.includes` and to splice substitution results into the
boolean-filter expression.  Non-integral numbers (never produced by the
engine's substitutions) are rendered as `num/den` in this model. -/
def jsToString : JSValue → String
  | .str s => s
  | .bool b => if b then "true" else "false"
  | .null => "null"
  | .undefined => "undefined"
  | .num q => if q.d = 1 then toString q.n else toString q.n ++ "/" ++ toString q.d

/-- Model of `leftValue?.includes(rightValue)`: `undefined`/`null`
receivers short-circuit to `undefined` (returned as the criterion
outcome, hence `JSValue.undefined` here); a string receiver performs the
substring test; a number or boolean receiver has no `includes` method
and throws a `TypeError`, modelled as `none`. -/
def jsIncludes : JSValue → JSValue → Option JSValue
  | .undefined, _ => some .undefined
  | .null, _ => some .undefined
  | .str s, r => some (.bool (strContainsSub s (jsToString r)))
  | _, _ => none

/-- Record data: JS object keyed by lower-cased field API name.
Modelled as an insertion-ordered association list (all keys used by the
engine are non-numeric strings, so JS object enumeration order is
insertion order). -/
abbrev RecordData := List (String × JSValue)

/-- Property read (`m[k]`), `.undefined` when absent. -/
def jsAssoc {α : Type} (m : List (String × α)) (k : String) : Option α :=
  (m.find? (fun p => p.1 == k)).map (fun p => p.2)

def jsLookup (data : RecordData) (k : String) : JSValue :=
  (jsAssoc data k).getD .undefined

/-- Property write (`m[k] = v`): overwrite in place when the key exists,
else append — JS object insertion-order semantics. -/
def jsInsert {α : Type} (m : List (String × α)) (k : String) (v : α) : List (String × α) :=
  if m.any (fun p => p.1 == k) then
    m.map (fun p => if p.1 == k then (k, v) else p)
  else m ++ [(k, v)]

/-!
Visibility rules (`evaluateVisibilityRule`, `evaluateBooleanExpression`
in `flexipageRecordForm.js`).
-/

/-- One visibility criterion, as read from the FlexiPage metadata:
`leftValue` is the raw field-reference token (for example
`"{!Record.Status__c}"`), `operator` the raw operator name, and
`rightValue` the comparison operand. -/
structure Criterion where
  leftValue : String
  operator : String
  rightValue : JSValue
deriving DecidableEq

/-- A visibility rule.  `criteria` is `none` when the rule carries no
`criteria` property (the evaluator returns `true` immediately);
`booleanFilter` is `none` when absent. -/
structure VisibilityRule where
  criteria : Option (List Criterion)
  booleanFilter : Option String
deriving DecidableEq

/-- Field-reference extraction performed on `criterion.leftValue`:
`.replace("{!Record.", "").replace("}", "").toLowerCase()` (both
`replace` calls substitute only the first occurrence). -/
def criterionLeftKey (leftValue : String) : String :=
  jsLowerStr (jsReplaceFirst (jsReplaceFirst leftValue "\x7b!Record." "") "\x7d" "")

/-- Evaluation of one criterion against the record data, mirroring the
`switch` in `evaluateVisibilityRule`.  The outcome is the raw JS value
of `conditionMet`: a boolean for every operator except `CONTAINS` on a
missing/null left value, which yields `undefined` (`JSValue.undefined`).
`CONTAINS` on a number or boolean left value throws a `TypeError`
(`none`), which propagates out of the rule evaluation uncaught. -/
def evaluateCriterion (data : RecordData) (c : Criterion) : Option JSValue :=
  let leftValue := jsLookup data (criterionLeftKey c.leftValue)
  if c.operator = "CONTAINS" then jsIncludes leftValue c.rightValue
  else if c.operator = "EQUAL" then some (.bool (jsStrictEq leftValue c.rightValue))
  else if c.operator = "NE" then some (.bool (!jsStrictEq leftValue c.rightValue))
  else if c.operator = "GT" then some (.bool (jsGt leftValue c.rightValue))
  else if c.operator = "GE" then some (.bool (jsGe leftValue c.rightValue))
  else if c.operator = "LE" then some (.bool (jsLe leftValue c.rightValue))
  else if c.operator = "LT" then some (.bool (jsLt leftValue c.rightValue))
  else some (.bool false)

instance : DecidableEq (Except Unit Bool) := fun x y =>
  match x, y with
  | .ok a, .ok b =>
    if h : a = b then isTrue (h ▸ rfl) else isFalse (fun hh => h (Except.ok.inj hh))
  | .error _, .error _ => isTrue rfl
  | .ok _, .error _ => isFalse (fun hh => Except.noConfusion hh)
  | .error _, .ok _ => isFalse (fun hh => Except.noConfusion hh)

/-- One conjunct chain of the restricted boolean evaluator: every
`&&`-part is trimmed and must be `"1"` or `"0"`; any other token throws
(`Except.error`).  The accumulator mirrors `andResult`, and the whole
chain is scanned even after the accumulator becomes `false`. -/
def evalAndChain : List String → Bool → Except Unit Bool
  | [], acc => .ok acc
  | p :: ps, acc =>
    if jsTrim p = "1" then evalAndChain ps acc
    else if jsTrim p = "0" then evalAndChain ps false
    else .error ()

/-- The `||`-level loop of the restricted boolean evaluator: each
`||`-part is trimmed, split on `&&` and evaluated; the first part whose
conjunction is true short-circuits the whole evaluation to `true`
(later parts — even malformed ones — are then never examined). -/
def evalOrChain : List String → Except Unit Bool
  | [] => .ok false
  | p :: ps =>
    match evalAndChain (jsSplitOn (jsTrim p) "&&") true with
    | .error e => .error e
    | .ok true => .ok true
    | .ok false => evalOrChain ps

/-- `evaluateBooleanExpression`: word-bounded replacement of
`true`/`false` by `1`/`0`, then two-level `||` / `&&` evaluation over
literal `1`/`0` atoms; parentheses are not part of the grammar, so a
parenthesised operand is a malformed atom and throws. -/
def evaluateBooleanExpression (expression : String) : Except Unit Bool :=
  let e := jsReplaceWordAll (jsReplaceWordAll expression "true" "1") "false" "0"
  evalOrChain (jsSplitOn e "||")

/-- The substituted expression built from a boolean filter: the filter
is lower-cased, the word tokens `and`/`or` become `&&`/`||`, and each
1-indexed positional reference is replaced (word-bounded, global) by the
stringified outcome of the corresponding criterion. -/
def substituteResults : Nat → List JSValue → String → String
  | _, [], e => e
  | idx, r :: rest, e =>
    substituteResults (idx + 1) rest (jsReplaceWordAll e (toString (idx + 1)) (jsToString r))

def visibilityFilterExpr (filter : String) (results : List JSValue) : String :=
  substituteResults 0 results
    (jsReplaceWordAll (jsReplaceWordAll (jsLowerStr filter) "and" "&&") "or" "||")

/-- `evaluateVisibilityRule`: evaluate every criterion, take the first
outcome (or `true` when there are none); when a non-empty
`booleanFilter` is present, evaluate the substituted expression with the
restricted evaluator and treat any thrown evaluation error as
not-visible (`false`) — that error is caught and never propagated.
A `TypeError` thrown by a criterion itself (modelled as `none`) is not
caught and aborts the whole call. -/
def evaluateVisibilityRule (data : RecordData) (rule : VisibilityRule) : Option JSValue :=
  match rule.criteria with
  | none => some (.bool true)
  | some cs => do
    let results ← cs.mapM (evaluateCriterion data)
    let base : JSValue := match results with
      | r :: _ => r
      | [] => .bool true
    match rule.booleanFilter with
    | none => pure base
    | some f =>
      if f = "" then pure base
      else
        match evaluateBooleanExpression (visibilityFilterExpr f results) with
        | .ok b => pure (.bool b)
        | .error _ => pure (.bool false)

/-!
Layout parsing (`parseFlexiPageJson` in `utils.js`).

The raw FlexiPage metadata document is modelled structurally: absent
JSON properties are `Option.none` (read back as JS `undefined`).
-/

/-- Entry of `fieldInstanceProperties` (for example the `value`,
`uiBehavior` or `conditionalFormatRuleset` property of a field). -/
structure FieldProp where
  name : String
  value : JSValue
deriving DecidableEq

structure FieldInstance where
  fieldItem : String
  fieldInstanceProperties : Option (List FieldProp)
  visibilityRule : Option VisibilityRule
deriving DecidableEq

/-- Entry of `componentInstanceProperties` (facet references, labels). -/
structure ComponentProp where
  name : String
  value : String
deriving DecidableEq

structure ComponentInstance where
  componentName : String
  identifier : String
  componentInstanceProperties : List ComponentProp
deriving DecidableEq

/-- One entry of a region's `itemInstances`: a field instance, a
component instance, or (degenerately) neither. -/
structure ItemInstance where
  fieldInstance : Option FieldInstance
  componentInstance : Option ComponentInstance
deriving DecidableEq

structure FlexiRegion where
  type : String
  name : String
  itemInstances : Option (List ItemInstance)
deriving DecidableEq

/-- The raw document.  `flexiPageRegions` is `none` when the property is
missing or not an array (the structural guard then returns an empty
parse result). -/
structure FlexiPageJson where
  flexiPageRegions : Option (List FlexiRegion)
deriving DecidableEq

/-- A parsed field slot.  Field-instance slots carry all properties;
blank-space slots carry only `isBlankSpace`, `isVisible` and `order`
(their other JS properties are absent, read back as `undefined`, hence
the defaults below). -/
structure FieldSlot where
  value : JSValue := .undefined
  isVisible : Bool := true
  isRequired : Bool := false
  isReadOnly : Bool := false
  visibilityRule : Option VisibilityRule := none
  conditionalFormatRuleset : JSValue := .undefined
  isBlankSpace : Bool := false
  order : Nat := 0
deriving DecidableEq

structure Column where
  side : String
  fields : List (String × FieldSlot)
deriving DecidableEq

structure Section where
  label : String
  columns : List (String × Column)
deriving DecidableEq

/-- The parser output `sections` object: insertion-ordered map from
section facet id to section. -/
abbrev Sections := List (String × Section)

/-- Simple-layout detection: some region of type `"Region"` has an
`itemInstances` array containing a field instance. -/
def hasSimpleLayout (regions : List FlexiRegion) : Bool :=
  regions.any (fun region =>
    region.type == "Region" &&
      (match region.itemInstances with
       | some items => items.any (fun item => item.fieldInstance.isSome)
       | none => false))

/-- Read of `fieldInstanceProperties?.find(p => p.name === name)?.value`. -/
def fieldPropValue (fi : FieldInstance) (propName : String) : JSValue :=
  match fi.fieldInstanceProperties with
  | none => .undefined
  | some props =>
    match props.find? (fun p => p.name == propName) with
    | some p => p.value
    | none => .undefined

/-- The slot built for a field instance in the simple-layout branch:
explicit `value` property (`|| ""` default), all flags reset, `order`
equal to the item's index within its own region's `itemInstances`. -/
def mkSimpleSlot (fi : FieldInstance) (idx : Nat) : FieldSlot :=
  { value := (let v := fieldPropValue fi "value"; if jsFalsy v then .str "" else v),
    isVisible := true, isRequired := false, isReadOnly := false,
    visibilityRule := none, conditionalFormatRuleset := .null,
    isBlankSpace := false, order := idx }

/-- The `region.itemInstances.forEach((item, index) => ...)` loop of the
simple-layout branch; `idx` starts at 0 for every region. -/
def addSimpleItems : Nat → List ItemInstance → List (String × FieldSlot) → List (String × FieldSlot)
  | _, [], fs => fs
  | idx, item :: rest, fs =>
    let fs' :=
      match item.fieldInstance with
      | some fi => jsInsert fs (jsReplaceFirst fi.fieldItem "Record." "") (mkSimpleSlot fi idx)
      | none => fs
    addSimpleItems (idx + 1) rest fs'

/-- The `flexiPageRegions.forEach` loop of the simple-layout branch:
regions processed in order, each contributing its field instances with
per-region indices. -/
def buildSimpleFieldsAux : List FlexiRegion → List (String × FieldSlot) → List (String × FieldSlot)
  | [], fs => fs
  | region :: rest, fs =>
    buildSimpleFieldsAux rest
      (if region.type == "Region" then
        match region.itemInstances with
        | some items => addSimpleItems 0 items fs
        | none => fs
      else fs)

def buildSimpleFields (regions : List FlexiRegion) : List (String × FieldSlot) :=
  buildSimpleFieldsAux regions []

/-- Simple-layout result: one synthetic section `"defaultSection"`
labelled `"Information"` with one column `"defaultColumn"`. -/
def parseSimpleLayout (regions : List FlexiRegion) : Sections :=
  [("defaultSection",
    { label := "Information",
      columns := [("defaultColumn", { side := "left", fields := buildSimpleFields regions })] })]

/-- Helper: update the section stored under a key (identity when the key
is absent). -/
def updateSection (secs : Sections) (k : String) (f : Section → Section) : Sections :=
  secs.map (fun p => if p.1 == k then (p.1, f p.2) else p)

/-- `parseInt(s, 10)`: skip leading whitespace, optional sign, then the
longest leading digit run; `none` models `NaN` (no digits). -/
def jsParseInt (s : String) : Option Int :=
  match (jsTrim s).data with
  | '-' :: t =>
    let ds := t.takeWhile Char.isDigit
    if ds.isEmpty then none else some (-(digitsToNat ds : Int))
  | '+' :: t =>
    let ds := t.takeWhile Char.isDigit
    if ds.isEmpty then none else some (digitsToNat ds : Int)
  | t =>
    let ds := t.takeWhile Char.isDigit
    if ds.isEmpty then none else some (digitsToNat ds : Int)

/-- Read of `componentInstanceProperties.find(p => p.name === name)`:
`none` means the subsequent `.value` access throws a `TypeError`. -/
def componentPropLookup (ci : ComponentInstance) (propName : String) : Option String :=
  (ci.componentInstanceProperties.find? (fun p => p.name == propName)).map (fun p => p.value)

/-- First pass of the complex-layout branch: collect
`flexipage:fieldSection` components as sections keyed by their `columns`
facet id, labelled by their `label` property (`|| "Unnamed Section"`).
A region without `itemInstances`, or a section component missing the
`columns` or `label` property, throws (`Except.error`). -/
def complexPass1 (regions : List FlexiRegion) : Except Unit Sections :=
  regions.foldlM
    (fun secs region =>
      match region.itemInstances with
      | none => .error ()
      | some items =>
        items.foldlM
          (fun secs item =>
            match item.componentInstance with
            | some ci =>
              if ci.componentName == "flexipage:fieldSection" then
                match componentPropLookup ci "columns" with
                | none => .error ()
                | some sectionFacetId =>
                  match componentPropLookup ci "label" with
                  | none => .error ()
                  | some rawLabel =>
                    let sectionLabel := if rawLabel = "" then "Unnamed Section" else rawLabel
                    if secs.any (fun p => p.1 == sectionFacetId) then pure secs
                    else pure (secs ++ [(sectionFacetId, { label := sectionLabel, columns := [] })])
              else pure secs
            | none => pure secs)
          secs)
    []

/-- Second pass: collect `flexipage:column` components inside facet
regions; the owning section is the facet region's `name`, the column key
is the component's `body` facet reference, and `side` comes from the
parity of the numeric suffix of the component identifier (`NaN` compares
unequal to `0`, hence `"left"`). -/
def complexPass2 (regions : List FlexiRegion) (secs0 : Sections) : Except Unit Sections :=
  regions.foldlM
    (fun secs region =>
      if region.type == "Facet" then
        match region.itemInstances with
        | none => .error ()
        | some items =>
          items.foldlM
            (fun secs item =>
              match item.componentInstance with
              | some ci =>
                if ci.componentName == "flexipage:column" then
                  match componentPropLookup ci "body" with
                  | none => .error ()
                  | some columnFacetId =>
                    let side :=
                      match jsParseInt (jsReplaceFirst ci.identifier "flexipage_column" "") with
                      | some k => if k % 2 = 0 then "right" else "left"
                      | none => "left"
                    if secs.any (fun p => p.1 == region.name) then
                      pure (updateSection secs region.name (fun sec =>
                        { sec with columns := jsInsert sec.columns columnFacetId { side := side, fields := [] } }))
                    else pure secs
                else pure secs
              | none => pure secs)
            secs
      else pure secs)
    secs0

/-- The slot built for a field instance in the complex-layout branch. -/
def mkComplexSlot (fi : FieldInstance) (idx : Nat) : FieldSlot :=
  { value := (let v := fieldPropValue fi "value"; if jsFalsy v then .str "" else v),
    isVisible := true,
    isRequired := jsStrictEq (fieldPropValue fi "uiBehavior") (.str "required"),
    isReadOnly := jsStrictEq (fieldPropValue fi "uiBehavior") (.str "readonly"),
    visibilityRule := fi.visibilityRule,
    conditionalFormatRuleset := fieldPropValue fi "conditionalFormatRuleset",
    isBlankSpace := false, order := idx }

/-- Helper: place a slot into a known (section, column) pair. -/
def placeSlot (secs : Sections) (sectionFacetId columnFacetId slotKey : String) (slot : FieldSlot) : Sections :=
  updateSection secs sectionFacetId (fun sec =>
    { sec with columns := sec.columns.map (fun p =>
        if p.1 == columnFacetId then (p.1, { p.2 with fields := jsInsert p.2.fields slotKey slot }) else p) })

/-- Third pass: walk every facet region's items; the owning section is
found by reverse lookup of the region name among the known column ids;
field instances become full slots, `flexipage:blankSpace` components
become spacer slots; `order` is the item index within the region. -/
def complexPass3Items (secs0 : Sections) (columnFacetId : String) : Nat → List ItemInstance → Sections → Sections
  | _, [], secs => secs
  | idx, item :: rest, secs =>
    let secs' :=
      match (secs.find? (fun p => p.2.columns.any (fun c => c.1 == columnFacetId))).map (fun p => p.1) with
      | some sectionFacetId =>
        match item.fieldInstance with
        | some fi =>
          placeSlot secs sectionFacetId columnFacetId
            (jsReplaceFirst fi.fieldItem "Record." "") (mkComplexSlot fi idx)
        | none =>
          match item.componentInstance with
          | some ci =>
            if ci.componentName == "flexipage:blankSpace" then
              let spacerId := if ci.identifier = "" then "spacer_" ++ toString idx else ci.identifier
              placeSlot secs sectionFacetId columnFacetId spacerId
                { isBlankSpace := true, isVisible := true, order := idx }
            else secs
          | none => secs
      | none => secs
    complexPass3Items secs0 columnFacetId (idx + 1) rest secs'

def complexPass3 (regions : List FlexiRegion) (secs0 : Sections) : Except Unit Sections :=
  regions.foldlM
    (fun secs region =>
      if region.type == "Facet" then
        match region.itemInstances with
        | none => .error ()
        | some items => pure (complexPass3Items secs region.name 0 items secs)
      else pure secs)
    secs0

/-- Final pass of the complex-layout branch: drop sections all of whose
columns are empty. -/
def dropEmptySections (secs : Sections) : Sections :=
  secs.filter (fun p => p.2.columns.any (fun c => !c.2.fields.isEmpty))

/-- `parseFlexiPageJson`: structural guard, simple-layout detection with
early return, else the three complex-layout passes and the empty-section
cleanup.  `Except.error` models an uncaught exception thrown while
parsing (caught by the component's caller, not here). -/
def parseFlexiPageJson (j : FlexiPageJson) : Except Unit Sections :=
  match j.flexiPageRegions with
  | none => .ok []
  | some regions =>
    if hasSimpleLayout regions then .ok (parseSimpleLayout regions)
    else do
      let s1 ← complexPass1 regions
      let s2 ← complexPass2 regions s1
      let s3 ← complexPass3 regions s2
      pure (dropEmptySections s3)

/-!
Exclusion policy (`readOnlyFields`, `allExcludedFields`,
`removeExcludedFields` in `flexipageRecordForm.js`).
-/

/-- The fixed system read-only field set. -/
def readOnlyFields : List String :=
  ["CreatedById", "LastModifiedById", "Id", "SystemModstamp",
   "CreatedDate", "LastModifiedDate", "OwnerId"]

/-- `allExcludedFields` getter: the caller-supplied comma-separated
list, trimmed (only when the property is non-empty), plus — in edit mode
(`isReadOnly = false`) — the system read-only set, everything
lower-cased. -/
def allExcludedFields (excludedFields : String) (isReadOnly : Bool) : List String :=
  let userExcluded :=
    if excludedFields = "" then []
    else (jsSplitOn excludedFields ",").map jsTrim
  ((userExcluded ++ if !isReadOnly then readOnlyFields else []).map jsLowerStr)

/-- `removeExcludedFields`: deep-copy the parsed sections and delete
every field slot whose lower-cased key is in `allExcludedFields`. -/
def removeExcludedFields (excludedFields : String) (isReadOnly : Bool) (secs : Sections) : Sections :=
  let excluded := allExcludedFields excludedFields isReadOnly
  secs.map (fun sp =>
    (sp.1, { sp.2 with columns := sp.2.columns.map (fun cp =>
      (cp.1, { cp.2 with fields := cp.2.fields.filter (fun fp => !excluded.contains (jsLowerStr fp.1)) })) }))

/-!
Default values (`parseDefaultValues`, `applyDefaultValues`).
-/

/-- Coercion applied to one default value: case-insensitive
`true`/`false` become booleans; a numeric-looking non-blank string
becomes a number; anything else stays a string. -/
def coerceDefaultValue (value : String) : JSValue :=
  if jsLowerStr value = "true" then .bool true
  else if jsLowerStr value = "false" then .bool false
  else
    match strToNumber value with
    | some q => if jsTrim value ≠ "" then .num q else .str value
    | none => .str value

/-- `parseDefaultValues`: split on `;` when present else `,`; each
non-blank pair splits on `:` (every part trimmed), the first part being
the field name and the remaining parts re-joined with `:` the value;
the result is a pair of maps (original-case keys, lower-cased keys). -/
def parseDefaultValues (defaultValues : String) :
    List (String × JSValue) × List (String × JSValue) :=
  if defaultValues = "" then ([], [])
  else
    let sep := if defaultValues.data.contains ';' then ";" else ","
    (jsSplitOn defaultValues sep).foldl
      (fun acc pair =>
        if jsTrim pair = "" then acc
        else
          let parts := (jsSplitOn pair ":").map jsTrim
          let fieldName := parts.headD ""
          let value := String.intercalate ":" parts.tail
          if fieldName ≠ "" then
            let processedValue := coerceDefaultValue value
            (jsInsert acc.1 fieldName processedValue,
             jsInsert acc.2 (jsLowerStr fieldName) processedValue)
          else acc)
      ([], [])

/-- The per-field-map body of `applyDefaultValues`: skip blank spaces;
when a default exists for the lower-cased key and the record is new (or
the slot has no truthy value), set the slot value and mirror it into the
record data under the lower-cased key. -/
def applyDefaultsToFields (lookupValues : List (String × JSValue)) (isNewRecord : Bool) :
    List (String × FieldSlot) → RecordData → List (String × FieldSlot) × RecordData
  | [], data => ([], data)
  | (fid, slot) :: rest, data =>
    if slot.isBlankSpace then
      let r := applyDefaultsToFields lookupValues isNewRecord rest data
      ((fid, slot) :: r.1, r.2)
    else
      match jsAssoc lookupValues (jsLowerStr fid) with
      | some v =>
        if isNewRecord || jsFalsy slot.value then
          let r := applyDefaultsToFields lookupValues isNewRecord rest (jsInsert data (jsLowerStr fid) v)
          ((fid, { slot with value := v }) :: r.1, r.2)
        else
          let r := applyDefaultsToFields lookupValues isNewRecord rest data
          ((fid, slot) :: r.1, r.2)
      | none =>
        let r := applyDefaultsToFields lookupValues isNewRecord rest data
        ((fid, slot) :: r.1, r.2)

def applyDefaultsToColumns (lookupValues : List (String × JSValue)) (isNewRecord : Bool) :
    List (String × Column) → RecordData → List (String × Column) × RecordData
  | [], data => ([], data)
  | (cid, col) :: rest, data =>
    let f := applyDefaultsToFields lookupValues isNewRecord col.fields data
    let r := applyDefaultsToColumns lookupValues isNewRecord rest f.2
    ((cid, { col with fields := f.1 }) :: r.1, r.2)

def applyDefaultsToSections (lookupValues : List (String × JSValue)) (isNewRecord : Bool) :
    Sections → RecordData → Sections × RecordData
  | [], data => ([], data)
  | (sid, sec) :: rest, data =>
    let c := applyDefaultsToColumns lookupValues isNewRecord sec.columns data
    let r := applyDefaultsToSections lookupValues isNewRecord rest c.2
    ((sid, { sec with columns := c.1 }) :: r.1, r.2)

/-- `applyDefaultValues`: parse the configured default-values string and
walk the parsed sections, mutating matching slots and the record data.
Returns the updated tree and record data (the source mutates both in
place).  An empty parsed map leaves everything untouched. -/
def applyDefaultValues (defaultValuesCfg : String) (isNewRecord : Bool)
    (secs : Sections) (data : RecordData) : Sections × RecordData :=
  let lookupValues := (parseDefaultValues defaultValuesCfg).2
  if lookupValues.isEmpty then (secs, data)
  else applyDefaultsToSections lookupValues isNewRecord secs data

/-!
Icon rules (`evaluateIconRules`).
-/

structure IconInfo where
  iconName : String
  iconResourcePath : String
deriving DecidableEq

/-- One externally fetched icon rule.  `icon` is `none` when the rule
carries no icon object (such a rule never produces a descriptor). -/
structure IconRule where
  visibilityGroup : Int
  visibilityRank : Int
  operator : String
  operand : JSValue
  icon : Option IconInfo
  iconColor : String
deriving DecidableEq

/-- The returned style descriptor `{type: "icon", iconName,
iconResourcePath, iconColor}`. -/
structure IconDescriptor where
  type : String
  iconName : String
  iconResourcePath : String
  iconColor : String
deriving DecidableEq

def mkIconDescriptor (r : IconRule) : Option IconDescriptor :=
  r.icon.map (fun ic =>
    { type := "icon", iconName := ic.iconName,
      iconResourcePath := ic.iconResourcePath, iconColor := r.iconColor })

/-- `!isNaN(v) ? Number(v) : v`. -/
def jsNumCoerce (v : JSValue) : JSValue :=
  match toNumber v with
  | some q => .num q
  | none => v

/-- The sort order of the comparator
`(a, b) => a.visibilityGroup - b.visibilityGroup || a.visibilityRank - b.visibilityRank`
(ascending lexicographic on group then rank). -/
def iconRuleKeyLe (a b : IconRule) : Prop :=
  a.visibilityGroup < b.visibilityGroup ∨
    (a.visibilityGroup = b.visibilityGroup ∧ a.visibilityRank ≤ b.visibilityRank)

instance : DecidableRel iconRuleKeyLe := fun a b => by
  unfold iconRuleKeyLe; infer_instance

/-- `[...iconRules].sort(comparator)`: JS `Array.prototype.sort` is
stable, so it computes exactly the stable insertion sort by the
comparator's order. -/
def sortIconRules (rules : List IconRule) : List IconRule :=
  List.insertionSort iconRuleKeyLe rules

/-- The per-rule `switch (rule.operator)` comparison, after numeric
coercion of the operand. -/
def iconRuleMatches (numValue : JSValue) (r : IconRule) : Bool :=
  let operand := jsNumCoerce r.operand
  if r.operator = "GT" then jsGt numValue operand
  else if r.operator = "GE" then jsGe numValue operand
  else if r.operator = "LT" then jsLt numValue operand
  else if r.operator = "LE" then jsLe numValue operand
  else if r.operator = "EQUAL" then jsStrictEq numValue operand
  else if r.operator = "NE" then !jsStrictEq numValue operand
  else false

/-- The first-match loop: return the descriptor of the first sorted rule
that matches *and* carries an icon object. -/
def firstIconMatch (numValue : JSValue) : List IconRule → Option IconDescriptor
  | [] => none
  | r :: rest =>
    match r.icon with
    | some ic =>
      if iconRuleMatches numValue r then
        some { type := "icon", iconName := ic.iconName,
               iconResourcePath := ic.iconResourcePath, iconColor := r.iconColor }
      else firstIconMatch numValue rest
    | none => firstIconMatch numValue rest

/-- `evaluateIconRules`: empty rule list or a `null`/`undefined` current
field value short-circuits to `null`; otherwise the field value is
numerically coerced, the rules are stably sorted by (group, rank) and
the first matching rule's descriptor is returned. -/
def evaluateIconRules (data : RecordData) (iconRules : List IconRule) (fieldId : String) : Option IconDescriptor :=
  if iconRules.isEmpty then none
  else
    let fieldValue := jsLookup data (jsLowerStr fieldId)
    if fieldValue = .null then none
    else if fieldValue = .undefined then none
    else firstIconMatch (jsNumCoerce fieldValue) (sortIconRules iconRules)

/-!
Supporting lemmas.
-/

theorem jsLt_left_undefined (v : JSValue) : jsLt .undefined v = false := by
  cases v <;> rfl

theorem jsLe_left_undefined (v : JSValue) : jsLe .undefined v = false := by
  cases v <;> rfl

theorem jsLt_right_undefined (v : JSValue) : jsLt v .undefined = false := by
  cases v with
  | str s =>
    show (match toNumber (.str s), toNumber .undefined with
          | some x, some y => jnLt x y
          | _, _ => false) = false
    cases toNumber (.str s) <;> rfl
  | _ => rfl

theorem jsLe_right_undefined (v : JSValue) : jsLe v .undefined = false := by
  cases v with
  | str s =>
    show (match toNumber (.str s), toNumber .undefined with
          | some x, some y => jnLe x y
          | _, _ => false) = false
    cases toNumber (.str s) <;> rfl
  | _ => rfl

theorem jsStrictEq_left_undefined (v : JSValue) (h : v ≠ .undefined) : jsStrictEq .undefined v = false := by
  cases v <;> first | rfl | exact absurd rfl h

theorem mem_jsInsert {α : Type} {m : List (String × α)} {k a : String} {v b : α}
    (h : (a, b) ∈ jsInsert m k v) : (a, b) ∈ m ∨ (a = k ∧ b = v) := by
  unfold jsInsert at h
  split at h
  · rcases List.mem_map.1 h with ⟨p, hp, heq⟩
    by_cases hk : (p.1 == k) = true
    · simp only [if_pos hk] at heq
      injection heq with h1 h2
      subst h1
      subst h2
      exact Or.inr ⟨rfl, rfl⟩
    · simp only [if_neg hk] at heq
      exact Or.inl (heq ▸ hp)
  · rcases List.mem_append.1 h with hm | hm
    · exact Or.inl hm
    · have heq := List.mem_singleton.1 hm
      injection heq with h1 h2
      subst h1
      subst h2
      exact Or.inr ⟨rfl, rfl⟩

/-!
Claim theorems.
-/

/-- Scenario E inputs: a rule with boolean filter `"1 AND (2 OR 3)"` and
three criteria that evaluate to `[true, false, true]` on the record
data below. -/
def scenarioECriteria : List Criterion :=
  [⟨"{!Record.F1__c}", "EQUAL", .str "a"⟩,
   ⟨"{!Record.F2__c}", "EQUAL", .str "b"⟩,
   ⟨"{!Record.F3__c}", "EQUAL", .str "c"⟩]

def scenarioERule : VisibilityRule :=
  ⟨some scenarioECriteria, some "1 AND (2 OR 3)"⟩

def scenarioEData : RecordData :=
  [("f1__c", .str "a"), ("f2__c", .str "x"), ("f3__c", .str "c")]

/-- C1 counterexample: with boolean filter `"1 AND (2 OR 3)"` and
criteria outcomes `[true, false, true]`, the visibility evaluation does
NOT return `true` (it fails closed to `false`), contradicting the
claim. -/
theorem claim_C1_counterexample :
    evaluateVisibilityRule scenarioEData scenarioERule ≠ some (.bool true) := by
  decide

/-- C1 (amended): for the rule with boolean filter `"1 AND (2 OR 3)"`
and criteria outcomes `[true, false, true]`, the substituted expression
is `"true && (false || true)"`; the restricted two-level evaluator has
no grammar for parentheses, so the atom `(0` produced after the
`true`/`false` rewriting is malformed, evaluation throws, and the rule
fails closed: the visibility evaluation returns `false`, not `true`. -/
theorem claim_C1_amended :
    scenarioECriteria.mapM (evaluateCriterion scenarioEData)
      = some [.bool true, .bool false, .bool true]
    ∧ visibilityFilterExpr "1 AND (2 OR 3)" [.bool true, .bool false, .bool true]
      = "true && (false || true)"
    ∧ evaluateBooleanExpression "true && (false || true)" = .error ()
    ∧ evaluateVisibilityRule scenarioEData scenarioERule = some (.bool false) := by
  refine ⟨by decide, by decide, by decide, by decide⟩

/-- C2 (amended): when the restricted evaluator actually throws on the
substituted expression — which happens exactly when a malformed atom is
reached before any `||`-disjunct consisting solely of `1` atoms — the
error is caught inside `evaluateVisibilityRule` and the field resolves
to not-visible (`false`); and under a present non-empty filter the rule
evaluation always returns a boolean (the evaluation error is never
propagated to the caller).  The original universal claim is refuted by
`claim_C2_counterexample`: a malformed atom sitting after a fully-true
disjunct is never reached, and the rule evaluates to `true`. -/
theorem claim_C2_amended :
    (∀ (data : RecordData) (rule : VisibilityRule) (cs : List Criterion) (f : String)
       (results : List JSValue),
       rule.criteria = some cs →
       rule.booleanFilter = some f →
       f ≠ "" →
       cs.mapM (evaluateCriterion data) = some results →
       evaluateBooleanExpression (visibilityFilterExpr f results) = .error () →
       evaluateVisibilityRule data rule = some (.bool false))
    ∧ (∀ (data : RecordData) (rule : VisibilityRule) (cs : List Criterion) (f : String)
       (results : List JSValue),
       rule.criteria = some cs →
       rule.booleanFilter = some f →
       f ≠ "" →
       cs.mapM (evaluateCriterion data) = some results →
       ∃ b : Bool, evaluateVisibilityRule data rule = some (.bool b)) := by
  constructor
  · intro data rule cs f results h1 h2 h3 h4 h5
    obtain ⟨rc, rf⟩ := rule
    simp only at h1 h2
    subst h1
    subst h2
    simp only [evaluateVisibilityRule, h4, Option.bind_eq_bind, Option.some_bind,
      if_neg h3, h5]
    rfl
  · intro data rule cs f results h1 h2 h3 h4
    obtain ⟨rc, rf⟩ := rule
    simp only at h1 h2
    subst h1
    subst h2
    simp only [evaluateVisibilityRule, h4, Option.bind_eq_bind, Option.some_bind, if_neg h3]
    cases he : evaluateBooleanExpression (visibilityFilterExpr f results) with
    | ok b => exact ⟨b, rfl⟩
    | error e => exact ⟨false, rfl⟩

/-- Inputs for the C2 theorems: one criterion evaluating to `true` and a
filter whose second disjunct is the malformed atom `junk`. -/
def c2Rule : VisibilityRule :=
  ⟨some [⟨"{!Record.A__c}", "EQUAL", .str "x"⟩], some "1 OR junk"⟩

def c2Data : RecordData := [("a__c", .str "x")]

/-- The atomic operands the restricted evaluator would inspect in an
expression (trimmed `&&`-parts of the `||`-parts, after the
`true`/`false` rewriting). -/
def exprAtoms (e : String) : List String :=
  ((jsSplitOn (jsReplaceWordAll (jsReplaceWordAll e "true" "1") "false" "0") "||").map
    (fun p => (jsSplitOn (jsTrim p) "&&").map jsTrim)).flatten

/-- C2 counterexample: the substituted expression of `c2Rule` contains
the atomic operand `junk`, which reduces to neither `"1"` nor `"0"`, yet
the field's visibility evaluates to `true` — the first disjunct `1`
short-circuits the scan before the malformed atom is reached, so the
claimed universal fail-closed behaviour does not hold. -/
theorem claim_C2_counterexample :
    "junk" ∈ exprAtoms (visibilityFilterExpr "1 OR junk" [.bool true])
    ∧ "junk" ≠ "1" ∧ "junk" ≠ "0"
    ∧ evaluateVisibilityRule c2Data c2Rule = some (.bool true) := by
  refine ⟨by decide, by decide, by decide, by decide⟩

/-- Witness for `claim_C2_amended` at a concrete input: the filter
`"junk AND 1"` reaches its malformed atom, so the field resolves to
not-visible, and the evaluation returns a boolean. -/
theorem claim_C2_amended_witness :
    evaluateVisibilityRule [("a__c", .str "x")]
      ⟨some [⟨"{!Record.A__c}", "EQUAL", .str "x"⟩], some "junk AND 1"⟩ = some (.bool false)
    ∧ ∃ b : Bool, evaluateVisibilityRule [("a__c", .str "x")]
      ⟨some [⟨"{!Record.A__c}", "EQUAL", .str "x"⟩], some "junk AND 1"⟩ = some (.bool b) :=
  ⟨claim_C2_amended.1 [("a__c", .str "x")]
      ⟨some [⟨"{!Record.A__c}", "EQUAL", .str "x"⟩], some "junk AND 1"⟩
      [⟨"{!Record.A__c}", "EQUAL", .str "x"⟩] "junk AND 1" [.bool true]
      rfl rfl (by decide) (by decide) (by decide),
   claim_C2_amended.2 [("a__c", .str "x")]
      ⟨some [⟨"{!Record.A__c}", "EQUAL", .str "x"⟩], some "junk AND 1"⟩
      [⟨"{!Record.A__c}", "EQUAL", .str "x"⟩] "junk AND 1" [.bool true]
      rfl rfl (by decide) (by decide)⟩

/-- C5 (confirmed): for a rule whose `criteria` list is present and
whose `booleanFilter` is absent, the visibility result is exactly the
first criterion's outcome — all criteria are evaluated (the `mapM`
hypothesis), but the outcomes of criteria 2..n are discarded — and with
zero criteria the result is `true`. -/
theorem claim_C5 :
    ∀ (data : RecordData) (rule : VisibilityRule) (cs : List Criterion),
      rule.criteria = some cs →
      rule.booleanFilter = none →
      ((∀ (b : JSValue) (rest : List JSValue),
          cs.mapM (evaluateCriterion data) = some (b :: rest) →
          evaluateVisibilityRule data rule = some b)
       ∧ (cs = [] → evaluateVisibilityRule data rule = some (.bool true))) := by
  intro data rule cs h1 h2
  obtain ⟨rc, rf⟩ := rule
  simp only at h1 h2
  subst h1
  subst h2
  constructor
  · intro b rest h4
    simp only [evaluateVisibilityRule, h4, Option.bind_eq_bind, Option.some_bind]
    rfl
  · intro h0
    subst h0
    rfl

/-- Witness for `claim_C5`: a two-criterion rule without filter whose
first criterion is true and second is false evaluates to `true` (the
second outcome is discarded), and an empty-criteria rule evaluates to
`true`. -/
theorem claim_C5_witness :
    evaluateVisibilityRule [("f1__c", .str "a"), ("f2__c", .str "x")]
      ⟨some [⟨"{!Record.F1__c}", "EQUAL", .str "a"⟩,
             ⟨"{!Record.F2__c}", "EQUAL", .str "b"⟩], none⟩ = some (.bool true)
    ∧ evaluateVisibilityRule [] ⟨some [], none⟩ = some (.bool true) :=
  ⟨(claim_C5 [("f1__c", .str "a"), ("f2__c", .str "x")]
      ⟨some [⟨"{!Record.F1__c}", "EQUAL", .str "a"⟩,
             ⟨"{!Record.F2__c}", "EQUAL", .str "b"⟩], none⟩
      [⟨"{!Record.F1__c}", "EQUAL", .str "a"⟩, ⟨"{!Record.F2__c}", "EQUAL", .str "b"⟩]
      rfl rfl).1 (.bool true) [.bool false] (by decide),
   (claim_C5 [] ⟨some [], none⟩ [] rfl rfl).2 rfl⟩

/-- C6 (amended): for a criterion whose left field is absent from the
record data (left value `undefined`), the relational operators `GT`,
`GE`, `LT`, `LE` yield `false` unconditionally; `EQUAL` yields `false`
and `NE` yields `true` provided the criterion's `rightValue` is not
itself `undefined`; and `CONTAINS` yields `undefined` (falsy — the
optional-chained `includes` call short-circuits) rather than the literal
`false`.  The original claim is refuted at an undefined `rightValue` by
`claim_C6_counterexample`. -/
theorem claim_C6_amended :
    ∀ (data : RecordData) (c : Criterion),
      jsLookup data (criterionLeftKey c.leftValue) = .undefined →
      (((c.operator = "GT" ∨ c.operator = "GE" ∨ c.operator = "LT" ∨ c.operator = "LE") →
          evaluateCriterion data c = some (.bool false))
       ∧ (c.rightValue ≠ .undefined → c.operator = "EQUAL" →
          evaluateCriterion data c = some (.bool false))
       ∧ (c.operator = "CONTAINS" → evaluateCriterion data c = some .undefined)
       ∧ (c.rightValue ≠ .undefined → c.operator = "NE" →
          evaluateCriterion data c = some (.bool true))) := by
  intro data c h
  obtain ⟨lv, op, rv⟩ := c
  simp only at h
  refine ⟨?_, ?_, ?_, ?_⟩
  · rintro (hop | hop | hop | hop) <;> subst hop <;>
      simp [evaluateCriterion, h, jsGt, jsGe, jsLt_right_undefined, jsLe_right_undefined,
        jsLt_left_undefined, jsLe_left_undefined]
  · intro hrv hop
    subst hop
    simp [evaluateCriterion, h, jsStrictEq_left_undefined rv hrv]
  · intro hop
    subst hop
    simp [evaluateCriterion, h, jsIncludes]
  · intro hrv hop
    subst hop
    simp [evaluateCriterion, h, jsStrictEq_left_undefined rv hrv]

/-- C6 counterexample: a criterion whose left field is missing from the
record data and whose `rightValue` is itself `undefined` (the
`rightValue` property absent from the rule JSON) makes `EQUAL` evaluate
to `true` (`undefined === undefined`) and `NE` to `false`, contradicting
the claimed `false` / `true` outcomes. -/
theorem claim_C6_counterexample :
    jsLookup [] (criterionLeftKey "{!Record.Foo__c}") = .undefined
    ∧ evaluateCriterion [] ⟨"{!Record.Foo__c}", "EQUAL", .undefined⟩ = some (.bool true)
    ∧ evaluateCriterion [] ⟨"{!Record.Foo__c}", "NE", .undefined⟩ = some (.bool false) := by
  refine ⟨by decide, by decide, by decide⟩

/-- Witness for `claim_C6_amended` at concrete inputs (missing left
field, defined right value). -/
theorem claim_C6_amended_witness :
    evaluateCriterion [] ⟨"{!Record.Foo__c}", "GT", .num ⟨5, 1⟩⟩ = some (.bool false)
    ∧ evaluateCriterion [] ⟨"{!Record.Foo__c}", "EQUAL", .str "x"⟩ = some (.bool false)
    ∧ evaluateCriterion [] ⟨"{!Record.Foo__c}", "CONTAINS", .str "x"⟩ = some .undefined
    ∧ evaluateCriterion [] ⟨"{!Record.Foo__c}", "NE", .str "x"⟩ = some (.bool true) :=
  ⟨(claim_C6_amended [] ⟨"{!Record.Foo__c}", "GT", .num ⟨5, 1⟩⟩ (by decide)).1
      (Or.inl rfl),
   (claim_C6_amended [] ⟨"{!Record.Foo__c}", "EQUAL", .str "x"⟩ (by decide)).2.1
      (by decide) rfl,
   (claim_C6_amended [] ⟨"{!Record.Foo__c}", "CONTAINS", .str "x"⟩ (by decide)).2.2.1 rfl,
   (claim_C6_amended [] ⟨"{!Record.Foo__c}", "NE", .str "x"⟩ (by decide)).2.2.2
      (by decide) rfl⟩

/-- Every lower-cased system read-only field is in the effective
exclusion list whenever the form is in edit mode, whatever the
caller-supplied configuration string. -/
theorem sysField_mem_allExcluded (cfg : String) (x : String)
    (hx : x ∈ readOnlyFields.map jsLowerStr) : x ∈ allExcludedFields cfg false := by
  unfold allExcludedFields
  rcases List.mem_map.1 hx with ⟨sys, hsys, heq⟩
  exact List.mem_map.2 ⟨sys, List.mem_append_right _ (by simpa using hsys), heq⟩

/-- C4 (confirmed): after `removeExcludedFields` runs in edit mode
(`isReadOnly = false`) — the step every assembly path performs before
building the rendered sections — no surviving field slot has the
lower-cased id of any of the seven system read-only fields, for every
parsed tree and every caller-supplied `excludedFields` string (the
comparison is case-insensitive on both sides). -/
theorem claim_C4 :
    ∀ (excludedCfg : String) (secs : Sections) (sid : String) (sec : Section)
      (cid : String) (col : Column) (fid : String) (slot : FieldSlot),
      (sid, sec) ∈ removeExcludedFields excludedCfg false secs →
      (cid, col) ∈ sec.columns →
      (fid, slot) ∈ col.fields →
      jsLowerStr fid ∉ readOnlyFields.map jsLowerStr := by
  intro cfg secs sid sec cid col fid slot h1 h2 h3 hmem
  unfold removeExcludedFields at h1
  rcases List.mem_map.1 h1 with ⟨⟨sid0, sec0⟩, hs0, heqs⟩
  injection heqs with he1 he2
  subst he2
  rcases List.mem_map.1 h2 with ⟨⟨cid0, col0⟩, hc0, heqc⟩
  injection heqc with hf1 hf2
  subst hf2
  have hpred := (List.mem_filter.1 h3).2
  simp at hpred
  exact hpred (sysField_mem_allExcluded cfg (jsLowerStr fid) hmem)

/-- Witness for `claim_C4`: a tree containing `CreatedById` and `Name`
filtered in edit mode with a mixed-case user exclusion list keeps only
`Name`, whose lower-cased id is not a system field. -/
theorem claim_C4_witness :
    jsLowerStr "Name" ∉ readOnlyFields.map jsLowerStr :=
  claim_C4 "OwnerId , foo__C"
    [("s1", { label := "x", columns := [("c1", { side := "left", fields :=
      [("CreatedById", { order := 0 }), ("Name", { order := 1 })] })] })]
    "s1" { label := "x", columns := [("c1", { side := "left", fields :=
      [("Name", { order := 1 })] })] }
    "c1" { side := "left", fields := [("Name", { order := 1 })] }
    "Name" { order := 1 }
    (by decide) (by decide) (by decide)

/-- Inner loop invariant for the simple-layout builder: every slot in
the output either was already in the accumulator or comes from a field
instance at index `j` of the region's items, with `order = idx + j`. -/
theorem addSimpleItems_mem :
    ∀ (items : List ItemInstance) (idx : Nat) (fs : List (String × FieldSlot))
      (fid : String) (slot : FieldSlot),
      (fid, slot) ∈ addSimpleItems idx items fs →
      (fid, slot) ∈ fs ∨
        ∃ (j : Nat) (item : ItemInstance) (fi : FieldInstance),
          items.get? j = some item ∧ item.fieldInstance = some fi ∧
          fid = jsReplaceFirst fi.fieldItem "Record." "" ∧ slot = mkSimpleSlot fi (idx + j) := by
  intro items
  induction items with
  | nil => intro idx fs fid slot h; exact Or.inl h
  | cons item rest ih =>
    intro idx fs fid slot h
    simp only [addSimpleItems] at h
    rcases ih (idx + 1) _ fid slot h with hin | ⟨j, it, fi, hj, hfi, hk, hs⟩
    · cases hfi : item.fieldInstance with
      | some fi =>
        rw [hfi] at hin
        rcases mem_jsInsert hin with hin2 | ⟨hk, hv⟩
        · exact Or.inl hin2
        · exact Or.inr ⟨0, item, fi, rfl, hfi, hk, by simpa using hv⟩
      | none =>
        rw [hfi] at hin
        exact Or.inl hin
    · exact Or.inr ⟨j + 1, it, fi, by simpa using hj, hfi, hk, by
        rw [hs]; congr 1; omega⟩

/-- Outer loop invariant for the simple-layout builder: every slot in
the output comes from a field instance of some `"Region"`-typed region,
with `order` equal to the item's index within that region. -/
theorem buildSimpleFieldsAux_mem :
    ∀ (regions : List FlexiRegion) (fs : List (String × FieldSlot))
      (fid : String) (slot : FieldSlot),
      (fid, slot) ∈ buildSimpleFieldsAux regions fs →
      (fid, slot) ∈ fs ∨
        ∃ region ∈ regions, region.type = "Region" ∧
          ∃ items, region.itemInstances = some items ∧
            ∃ (i : Nat) (item : ItemInstance) (fi : FieldInstance),
              items.get? i = some item ∧ item.fieldInstance = some fi ∧
              fid = jsReplaceFirst fi.fieldItem "Record." "" ∧ slot = mkSimpleSlot fi i := by
  intro regions
  induction regions with
  | nil => intro fs fid slot h; exact Or.inl h
  | cons region rest ih =>
    intro fs fid slot h
    simp only [buildSimpleFieldsAux] at h
    rcases ih _ fid slot h with hin | ⟨r, hr, hrest⟩
    · by_cases ht : region.type == "Region"
      · rw [if_pos ht] at hin
        cases hii : region.itemInstances with
        | some items =>
          rw [hii] at hin
          rcases addSimpleItems_mem items 0 fs fid slot hin with hin2 | ⟨j, it, fi, hj, hfi, hk, hs⟩
          · exact Or.inl hin2
          · exact Or.inr ⟨region, List.mem_cons_self _ _,
              by simpa using ht, items, hii, j, it, fi, hj, hfi, hk, by simpa using hs⟩
        | none =>
          rw [hii] at hin
          exact Or.inl hin
      · rw [if_neg ht] at hin
        exact Or.inl hin
    · exact Or.inr ⟨r, List.mem_cons_of_mem _ hr, hrest⟩

/-- C3 (amended): every simple-shape document parses to the single
synthetic section `"defaultSection"` (label `"Information"`) with the
single column `"defaultColumn"`, and every field slot's `order` is the
item's index within its *own* region's `itemInstances` — not the index
in the flattened field list across all regions.  The original claim's
cross-region numbering is refuted by `claim_C3_counterexample`. -/
theorem claim_C3_amended :
    ∀ (j : FlexiPageJson) (regions : List FlexiRegion),
      j.flexiPageRegions = some regions →
      hasSimpleLayout regions = true →
      parseFlexiPageJson j =
        .ok [("defaultSection",
          { label := "Information",
            columns := [("defaultColumn",
              { side := "left", fields := buildSimpleFields regions })] })]
      ∧ ∀ (fid : String) (slot : FieldSlot), (fid, slot) ∈ buildSimpleFields regions →
          ∃ region ∈ regions, region.type = "Region" ∧
            ∃ items, region.itemInstances = some items ∧
              ∃ (i : Nat) (item : ItemInstance) (fi : FieldInstance),
                items.get? i = some item ∧ item.fieldInstance = some fi ∧
                fid = jsReplaceFirst fi.fieldItem "Record." "" ∧
                slot = mkSimpleSlot fi i := by
  intro j regions h1 h2
  obtain ⟨jr⟩ := j
  simp only at h1
  subst h1
  constructor
  · simp [parseFlexiPageJson, h2, parseSimpleLayout]
  · intro fid slot hmem
    rcases buildSimpleFieldsAux_mem regions [] fid slot hmem with hin | hgood
    · simp at hin
    · exact hgood

/-- Scenario C document: regions R1 with field items `a`, `b` and R2
with field item `c`, all flat field instances (simple shape). -/
def c3Item (f : String) : ItemInstance := ⟨some ⟨f, none, none⟩, none⟩

def c3Regions : List FlexiRegion :=
  [⟨"Region", "r1", some [c3Item "Record.a", c3Item "Record.b"]⟩,
   ⟨"Region", "r2", some [c3Item "Record.c"]⟩]

def c3Doc : FlexiPageJson := ⟨some c3Regions⟩

/-- The `order` recorded for a given field of the single synthetic
section/column in the parse of `c3Doc`. -/
def c3OrderOf (fid : String) : Option Nat :=
  (parseFlexiPageJson c3Doc).toOption.bind (fun secs =>
    (jsAssoc secs "defaultSection").bind (fun sec =>
      (jsAssoc sec.columns "defaultColumn").bind (fun col =>
        (jsAssoc col.fields fid).map FieldSlot.order)))

/-- C3 counterexample: for regions R1(items `a`, `b`) and R2(item `c`),
the parser records orders `a:0, b:1, c:0` — `order` restarts at the
beginning of every region (`itemInstances.forEach((item, index))`), so
`c` gets order `0`, not the claimed flattened cross-region index `2`. -/
theorem claim_C3_counterexample :
    c3OrderOf "a" = some 0 ∧ c3OrderOf "b" = some 1
    ∧ c3OrderOf "c" = some 0 ∧ c3OrderOf "c" ≠ some 2 := by
  refine ⟨by decide, by decide, by decide, by decide⟩

/-- Witness for `claim_C3_amended`: the Scenario C document satisfies
its hypotheses and collapses into the single synthetic section. -/
theorem claim_C3_amended_witness :
    parseFlexiPageJson c3Doc =
      .ok [("defaultSection",
        { label := "Information",
          columns := [("defaultColumn",
            { side := "left", fields := buildSimpleFields c3Regions })] })] :=
  (claim_C3_amended c3Doc c3Regions rfl (by decide)).1

instance : IsTotal IconRule iconRuleKeyLe := by
  constructor
  intro a b
  unfold iconRuleKeyLe
  omega

instance : IsTrans IconRule iconRuleKeyLe := by
  constructor
  intro a b c hab hbc
  unfold iconRuleKeyLe at *
  omega

/-- When every rule carries an icon object, the first-match loop returns
the descriptor of the first rule (in list order) whose comparison
matches. -/
theorem firstIconMatch_eq_find (nv : JSValue) :
    ∀ (l : List IconRule), (∀ r ∈ l, r.icon.isSome) →
      firstIconMatch nv l = (l.find? (iconRuleMatches nv)).bind mkIconDescriptor := by
  intro l
  induction l with
  | nil => intro _; rfl
  | cons r rest ih =>
    intro h
    have hr := h r (List.mem_cons_self _ _)
    cases hic : r.icon with
    | none => rw [hic] at hr; simp at hr
    | some ic =>
      simp only [firstIconMatch, hic]
      by_cases hm : iconRuleMatches nv r
      · simp [List.find?, hm, mkIconDescriptor, hic]
      · simp only [List.find?_cons_of_neg _ (by simpa using hm), if_neg hm]
        exact ih (fun x hx => h x (List.mem_cons_of_mem _ hx))

/-- Scenario D rules: group 1 rank 1 `GT 50`, group 1 rank 2 `LE 50`. -/
def iconRuleD1 : IconRule := ⟨1, 1, "GT", .str "50", some ⟨"up", "/up"⟩, "green"⟩

def iconRuleD2 : IconRule := ⟨1, 2, "LE", .str "50", some ⟨"down", "/down"⟩, "red"⟩

/-- C7 (confirmed): whenever the field's current value is neither `null`
nor `undefined` and every fetched rule carries an icon object, icon-rule
evaluation computes exactly: sort ascending by `(visibilityGroup,
visibilityRank)` (the sorted list is ordered and a permutation of the
input) and return the descriptor `{type: "icon", iconName,
iconResourcePath, iconColor}` of the first matching rule, `none` when no
rule matches; in particular, Scenario D (rules `GT 50` rank 1 and
`LE 50` rank 2 in group 1, field value `30`) returns the second rule's
descriptor. -/
theorem claim_C7 :
    (∀ (data : RecordData) (rules : List IconRule) (fieldId : String),
       jsLookup data (jsLowerStr fieldId) ≠ .null →
       jsLookup data (jsLowerStr fieldId) ≠ .undefined →
       (∀ r ∈ rules, r.icon.isSome) →
       List.Sorted iconRuleKeyLe (sortIconRules rules)
       ∧ (sortIconRules rules).Perm rules
       ∧ evaluateIconRules data rules fieldId =
           ((sortIconRules rules).find? (iconRuleMatches
               (jsNumCoerce (jsLookup data (jsLowerStr fieldId))))).bind mkIconDescriptor)
    ∧ evaluateIconRules [("amount", .num ⟨30, 1⟩)] [iconRuleD1, iconRuleD2] "Amount"
        = some ⟨"icon", "down", "/down", "red"⟩ := by
  constructor
  · intro data rules fieldId hnull hundef hicons
    refine ⟨List.sorted_insertionSort iconRuleKeyLe rules,
      List.perm_insertionSort iconRuleKeyLe rules, ?_⟩
    by_cases hempty : rules.isEmpty
    · have : rules = [] := List.isEmpty_iff.1 hempty
      subst this
      rfl
    · have h0 : rules.isEmpty = false := by simpa using hempty
      simp only [evaluateIconRules, h0, Bool.false_eq_true, if_false, if_neg hnull, if_neg hundef]
      exact firstIconMatch_eq_find _ _ (fun r hr =>
        hicons r ((List.perm_insertionSort iconRuleKeyLe rules).mem_iff.1 hr))
  · decide

/-- Witness for `claim_C7` applied at the Scenario D input. -/
theorem claim_C7_witness :
    List.Sorted iconRuleKeyLe (sortIconRules [iconRuleD1, iconRuleD2])
    ∧ (sortIconRules [iconRuleD1, iconRuleD2]).Perm [iconRuleD1, iconRuleD2]
    ∧ evaluateIconRules [("amount", .num ⟨30, 1⟩)] [iconRuleD1, iconRuleD2] "Amount"
        = ((sortIconRules [iconRuleD1, iconRuleD2]).find? (iconRuleMatches
            (jsNumCoerce (jsLookup [("amount", .num ⟨30, 1⟩)] (jsLowerStr "Amount"))))).bind
          mkIconDescriptor :=
  claim_C7.1 [("amount", .num ⟨30, 1⟩)] [iconRuleD1, iconRuleD2] "Amount"
    (by decide) (by decide) (by decide)

/-- Scenario B tree: one section with `Amount__c` and `Stage__c` slots
(parsed with the default empty-string value), new record, empty record
data. -/
def c8Sections : Sections :=
  [("s1", { label := "Info", columns := [("c1", { side := "left", fields :=
    [("Amount__c", { value := .str "", order := 0 }),
     ("Stage__c", { value := .str "", order := 1 })] })] })]

/-- C8 (confirmed): parsing `"Amount__c:100;Stage__c:Prospecting"`
yields the lower-cased map `{amount__c ↦ 100 (number), stage__c ↦
"Prospecting" (string)}`; applying it to a new record sets the
`Amount__c` slot value to the number `100` and the `Stage__c` slot
value to the string `"Prospecting"`, and mirrors both into the record
data under the lower-cased keys. -/
theorem claim_C8 :
    (parseDefaultValues "Amount__c:100;Stage__c:Prospecting").2
      = [("amount__c", .num ⟨100, 1⟩), ("stage__c", .str "Prospecting")]
    ∧ ((applyDefaultValues "Amount__c:100;Stage__c:Prospecting" true c8Sections []).1.head?.bind
        (fun s => (jsAssoc s.2.columns "c1").bind
          (fun col => (jsAssoc col.fields "Amount__c").map FieldSlot.value)))
        = some (.num ⟨100, 1⟩)
    ∧ ((applyDefaultValues "Amount__c:100;Stage__c:Prospecting" true c8Sections []).1.head?.bind
        (fun s => (jsAssoc s.2.columns "c1").bind
          (fun col => (jsAssoc col.fields "Stage__c").map FieldSlot.value)))
        = some (.str "Prospecting")
    ∧ (applyDefaultValues "Amount__c:100;Stage__c:Prospecting" true c8Sections []).2
        = [("amount__c", .num ⟨100, 1⟩), ("stage__c", .str "Prospecting")] := by
  refine ⟨by decide, by decide, by decide, by decide⟩

/-- C10 (confirmed): whenever the field's current record value is `null`
or `undefined` (missing), icon-rule evaluation returns `null` for every
rule list — the guard precedes the sort/match loop, so no rule is
evaluated, including `NE` rules that would match an undefined value
under the visibility-criterion semantics. -/
theorem claim_C10 :
    ∀ (data : RecordData) (rules : List IconRule) (fieldId : String),
      (jsLookup data (jsLowerStr fieldId) = .null ∨
       jsLookup data (jsLowerStr fieldId) = .undefined) →
      evaluateIconRules data rules fieldId = none := by
  intro data rules fieldId h
  by_cases hempty : rules.isEmpty
  · simp [evaluateIconRules, hempty]
  · have h0 : rules.isEmpty = false := by simpa using hempty
    rcases h with h | h <;>
      simp [evaluateIconRules, h0, h]

/-- Witness for `claim_C10`: an `NE` rule — which matches an undefined
value under the visibility-criterion semantics (see `claim_C6_amended`)
— still yields `none` when the field value is missing. -/
theorem claim_C10_witness :
    evaluateIconRules [] [⟨1, 1, "NE", .str "x", some ⟨"flag", "/flag"⟩, "red"⟩] "Score__c"
      = none :=
  claim_C10 [] [⟨1, 1, "NE", .str "x", some ⟨"flag", "/flag"⟩, "red"⟩] "Score__c"
    (Or.inr (by decide))
